import Mathlib

/-!
Verification of `src/packages/start/data/createRouteData.tsx` (solid-start).

The file shallowly embeds the createRouteData module: JavaScript values are
modelled by the mutual inductive family `JSVal`/`JSList`/`JSFields`; JS code
that can throw a `TypeError` is modelled with `Except String`; the per-fetch
wrapper `resourceFetcher`, the redirect handler `handleResponse`, the key
matcher `partialMatch` / `partialDeepEqual` and the refetch registry are
translated from the source.  External collaborators that the module consumes
(solid-js `createResource` source semantics, the server `pageEvent`, the
`isRedirectResponse` / `LocationHeader` helpers from `../server/responses`)
are not under `src/`; they are modelled from the specification and marked as
such in their doc comments.
-/

set_option maxHeartbeats 1000000

deriving instance DecidableEq for Except

namespace CreateRouteData

mutual

/-- JavaScript runtime values, as far as this module needs them:
`undefined`, `null`, booleans, numbers (modelled as mathematical integers;
`NaN` and fractional values play no role in any claim), strings, arrays and
plain objects (insertion-ordered field lists, duplicate-free as produced by
object literals).  Being pure trees, structural equality stands in for JS
reference equality `===`: two structurally equal trees always satisfy the
source's `partialDeepEqual` (its first branch), so the substitution does not
change any observable result of the matcher. -/
inductive JSVal where
  | undef : JSVal
  | null : JSVal
  | bool (b : Bool) : JSVal
  | num (n : Int) : JSVal
  | str (s : String) : JSVal
  | arr (xs : JSList) : JSVal
  | obj (fs : JSFields) : JSVal
  deriving DecidableEq, Repr

/-- A JS array's elements. -/
inductive JSList where
  | nil : JSList
  | cons (head : JSVal) (tail : JSList) : JSList
  deriving DecidableEq, Repr

/-- A JS object's fields, in insertion order. -/
inductive JSFields where
  | nil : JSFields
  | cons (key : String) (val : JSVal) (tail : JSFields) : JSFields
  deriving DecidableEq, Repr

end

/-- Builds a `JSList` from a Lean list (notation convenience only). -/
def JSList.ofList : List JSVal → JSList
  | [] => .nil
  | x :: xs => .cons x (JSList.ofList xs)

/-- Builds `JSFields` from a Lean association list (notation convenience
only). -/
def JSFields.ofList : List (String × JSVal) → JSFields
  | [] => .nil
  | (k, v) :: ps => .cons k v (JSFields.ofList ps)

/-- The elements of a `JSList`, as a Lean list. -/
def JSList.toList : JSList → List JSVal
  | .nil => []
  | .cons x t => x :: t.toList

/-- The fields of a `JSFields`, as a Lean association list. -/
def JSFields.toList : JSFields → List (String × JSVal)
  | .nil => []
  | .cons k v t => (k, v) :: t.toList

/-- Number of elements of a JS array. -/
def JSList.length : JSList → Nat
  | .nil => 0
  | .cons _ t => t.length + 1

/-- First-occurrence field lookup on a JS object (object literals have
unique keys, so first and only occurrence). -/
def JSFields.lookup : JSFields → String → Option JSVal
  | .nil, _ => none
  | .cons k v t, key => if k = key then some v else t.lookup key

/-- JS `typeof` on the modelled values. -/
def jsTypeof : JSVal → String
  | .undef => "undefined"
  | .null => "object"
  | .bool _ => "boolean"
  | .num _ => "number"
  | .str _ => "string"
  | .arr _ => "object"
  | .obj _ => "object"

/-- JS truthiness of the modelled values. -/
def truthy : JSVal → Bool
  | .undef => false
  | .null => false
  | .bool b => b
  | .num n => n != 0
  | .str s => s != ""
  | .arr _ => true
  | .obj _ => true

/-- Error message for the JS `TypeError` raised by reading a property of
`null` or `undefined`. -/
def nullLengthError : String := "TypeError: cannot read length of null or undefined"

/-- Reading `v.length`.  Throws a `TypeError` on `null`/`undefined`; a string
or array yields its length; a plain object yields its `length` field if
present (else `undefined`); numbers and booleans have no `length` property. -/
def lengthProp : JSVal → Except String JSVal
  | .null => .error nullLengthError
  | .undef => .error nullLengthError
  | .str s => .ok (.num (s.length : Int))
  | .arr xs => .ok (.num (xs.length : Int))
  | .obj fs => .ok ((fs.lookup "length").getD .undef)
  | _ => .ok (.undef)

/-- Looks up the element of a JS array whose (array-index) key is `k`,
counting from index `i`; JS array indexing uses the canonical decimal string
of the index, so the key is compared against `toString` of each position. -/
def arrIndex (i : Nat) (k : String) : JSList → JSVal
  | .nil => .undef
  | .cons x rest => if toString i = k then x else arrIndex (i + 1) k rest

/-- Property read `a[k]`.  Only ever applied (inside `partialDeepEqual`) to
values that passed the `a && typeof a === "object"` guard, i.e. arrays and
objects; on the remaining constructors it returns `undefined`, which matches
JS property access on (boxed) primitives. -/
def getField : JSVal → String → JSVal
  | .obj fs, k => (fs.lookup k).getD .undef
  | .arr xs, k => if k = "length" then .num (xs.length : Int) else arrIndex 0 k xs
  | _, _ => (.undef)

/-- The source line `if (a.length && !b.length) return false;` of
`partialDeepEqual`: evaluates `a.length` (which throws on `null`), and only
if that is truthy evaluates `b.length` (which throws on `null`); `.ok true`
means the guard fired (the function returns `false`). -/
def lengthGuard (a b : JSVal) : Except String Bool :=
  match lengthProp a with
  | .error m => .error m
  | .ok la =>
    if truthy la then
      match lengthProp b with
      | .error m => .error m
      | .ok lb => .ok (!truthy lb)
    else .ok false

mutual

/-- Translation of the source's `partialDeepEqual(a, b)` (checks whether `b`
partially matches `a`): reference equality shortcut, `typeof` comparison, the
`a.length && !b.length` guard (whose `.length` reads can throw, hence the
`Except`), then — under the `a && b && typeof a === "object" && typeof b ===
"object"` guard — the recursive key walk `!Object.keys(b).some(key =>
!partialDeepEqual(a[key], b[key]))`, and `false` in every other case.
`Object.keys` of an object are its field names in insertion order; of an
array, the decimal index strings in order. -/
def partialDeepEqual (a b : JSVal) : Except String Bool :=
  if a = b then .ok true
  else if jsTypeof a ≠ jsTypeof b then .ok false
  else
    match lengthGuard a b with
    | .error m => .error m
    | .ok true => .ok false
    | .ok false =>
      if truthy a ∧ truthy b ∧ jsTypeof a = "object" ∧ jsTypeof b = "object" then
        match b with
        | .obj fs => partialDeepEqualFields a fs
        | .arr xs => partialDeepEqualElems a 0 xs
        | _ => .ok false
      else .ok false

/-- The key walk over an object `b`: `Object.keys(b).some` stops at the first
key whose recursive comparison is `false` (overall result `false`); a thrown
`TypeError` inside the callback propagates. -/
def partialDeepEqualFields (a : JSVal) : JSFields → Except String Bool
  | .nil => .ok true
  | .cons k v rest =>
    match partialDeepEqual (getField a k) v with
    | .error m => .error m
    | .ok true => partialDeepEqualFields a rest
    | .ok false => .ok false

/-- The key walk over an array `b`, whose `Object.keys` are the decimal index
strings starting at `i`. -/
def partialDeepEqualElems (a : JSVal) (i : Nat) : JSList → Except String Bool
  | .nil => .ok true
  | .cons x rest =>
    match partialDeepEqual (getField a (toString i)) x with
    | .error m => .error m
    | .ok true => partialDeepEqualElems a (i + 1) rest
    | .ok false => .ok false

end

/-- Translation of the source's `ensureQueryKeyArray`. -/
def ensureQueryKeyArray (v : JSVal) : JSVal :=
  match v with
  | .arr _ => v
  | _ => .arr (.cons v .nil)

/-- Translation of the source's `partialMatch(a, b)` (React-Query style key
matching): both keys are normalised to arrays and compared with
`partialDeepEqual`. -/
def partialMatch (a b : JSVal) : Except String Bool :=
  partialDeepEqual (ensureQueryKeyArray a) (ensureQueryKeyArray b)

/-- An HTTP `Response` as consumed by this module: a status code plus an
insertion-ordered header list (name, value).  `headers.get` is modelled as
`List.lookup` (header names are taken in their canonical form) and
`headers.forEach` iterates the list in order. -/
structure Response where
  status : Nat
  headers : List (String × String)
  deriving DecidableEq, Repr

/-- Modelled from the spec: `isRedirectResponse` is imported from
`../server/responses`, which is not under `src/`.  The spec describes it as
a "predicate over its status code" detecting a "status in the conventional
3xx redirect range". -/
def isRedirectResponse (r : Response) : Bool :=
  300 ≤ r.status && r.status < 400

/-- Modelled from the spec: `LocationHeader` is imported from
`../server/responses`; the redirect "target [is] read from the equivalent of
a `Location` header". -/
def LocationHeader : String := "Location"

/-- Modelled from the spec: the ambient server page event (from
`ServerContext`, which is not under `src/`) carries the outer page
response's status code and its header collection; `setStatusCode` replaces
the status, and `responseHeaders.set` writes one header with standard
header-map (last-write-wins) semantics. -/
structure PageEvent where
  statusCode : Nat
  responseHeaders : List (String × String)
  deriving DecidableEq, Repr

/-- `Headers.get(name)` on a modelled header list: the first binding of the
(canonical) name, or `none` — JS `null`. -/
def headersGet : List (String × String) → String → Option String
  | [], _ => none
  | p :: rest, n => if p.1 = n then some p.2 else headersGet rest n

/-- `Headers.set(name, value)`: replaces the binding for `name` (every
occurrence, keeping its position) or appends a new one; observationally (via
`headersGet`) this is exactly the last-write-wins header-map update. -/
def setHeader : List (String × String) → String → String → List (String × String)
  | [], n, v => [(n, v)]
  | p :: rest, n, v =>
    if p.1 = n then (n, v) :: setHeader rest n v else p :: setHeader rest n v

/-- The navigation side effect performed inside the `startTransition`
callback of `handleResponse`: a router `navigate(url, { replace: true })`
for same-origin targets, a full browser navigation
(`window.location.href = url`) for cross-origin targets on the client, or
none (cross-origin target on the server). -/
inductive NavAction where
  | navigateReplace (url : String) : NavAction
  | browserAssign (url : String) : NavAction
  | noNav : NavAction
  deriving DecidableEq, Repr

/-- Error message for the JS `TypeError` raised by
`response.headers.get(LocationHeader).startsWith("/")` when the header is
absent and `get` returned `null`. -/
def nullUrlError : String := "TypeError: cannot read startsWith of null"

/-- Translation of the source's `handleResponse(response)`, parameterised by
the runtime (`isServer`) and the ambient `pageEvent`.  The `startTransition`
callback is modelled as running synchronously (solid-js executes the
transition body immediately, and a throw inside it propagates to the caller
before the page-event mutations run): it reads the `Location` header —
`null` if absent, in which case `url.startsWith` throws a `TypeError` — and
picks the navigation action.  On the server, the outer response's status
code is then set to the redirect's status, and every header of the redirect
response is copied in iteration order into the outer header map (the JS
callback parameters `(head, value)` receive `Headers.forEach`'s
`(value, key)` arguments, so `responseHeaders.set(value, head)` sets the
name `p.1` to the value `p.2`).  Non-redirect responses are ignored. -/
def handleResponse (isServer : Bool) (pageEvent : PageEvent) (response : Response) :
    Except String (NavAction × PageEvent) :=
  if isRedirectResponse response then
    match headersGet response.headers LocationHeader with
    | none => .error nullUrlError
    | some url =>
      let act :=
        if url.startsWith "/" then NavAction.navigateReplace url
        else if !isServer then NavAction.browserAssign url
        else NavAction.noNav
      let pageEvent' :=
        if isServer then
          { statusCode := response.status
            responseHeaders :=
              response.headers.foldl (fun hs p => setHeader hs p.1 p.2)
                pageEvent.responseHeaders }
        else pageEvent
      .ok (act, pageEvent')
  else .ok (.noNav, pageEvent)

/-- A value produced or thrown by the user fetcher: an ordinary JS value, a
`Response` instance, or a runtime error object (e.g. a `TypeError`); only
the `resp` constructor satisfies `instanceof Response`. -/
inductive FetchVal where
  | plain (v : JSVal) : FetchVal
  | resp (r : Response) : FetchVal
  | exn (msg : String) : FetchVal
  deriving DecidableEq, Repr

/-- What the user fetcher does on one invocation: return a value (a resolved
promise counts as a return) or throw one (a rejected promise counts as a
throw). -/
inductive FetcherOutcome where
  | returns (v : FetchVal) : FetcherOutcome
  | throws (e : FetchVal) : FetcherOutcome
  deriving DecidableEq, Repr

/-- How one `resourceFetcher` invocation settles: its promise resolves with
a value, or rejects with a thrown value. -/
inductive FetchResult where
  | resolved (v : FetchVal) : FetchResult
  | rejected (e : FetchVal) : FetchResult
  deriving DecidableEq, Repr

/-- The short-circuit test `info.refetching && info.refetching !== true &&
!partialMatch(key, info.refetching)` at the top of `resourceFetcher`
(`.ok true` means the guard fired and the wrapper returns the cached
`info.value`).  The `partialMatch` call can throw, and it is only reached
when `info.refetching` is truthy and not the sentinel `true`. -/
def refetchGuard (key refetching : JSVal) : Except String Bool :=
  if truthy refetching then
    if refetching = .bool true then .ok false
    else
      match partialMatch key refetching with
      | .error m => .error m
      | .ok m => .ok (!m)
  else .ok false

/-- Translation of the source's `resourceFetcher(key, info)`, parameterised
by the runtime (`isServer`), the ambient `pageEvent`, the resource state
(`info.refetching` — `false` on a plain fetch, `true` or a refresh key on a
refetch — and the previous `info.value`), and the user fetcher's behaviour
on this invocation (`outcome`).  Returns how the wrapper's promise settles,
the resulting page event, and the list of `handleResponse(response)` calls
deferred with `setTimeout(..., 0)` on the client.  The event object built
for the fetcher (the frozen `{request, env, $type, fetch}` record on the
server, the page event itself on the client) influences none of these
observables, so it is not represented.  A `TypeError` thrown by the guard's
`partialMatch`, or by `handleResponse` inside the `try`, is caught by the
`catch`, fails its `instanceof Response` test and is re-thrown; a
`TypeError` thrown by `handleResponse` inside the `catch` block rejects the
promise directly.  Either way the page-event mutations have not happened
when `handleResponse` throws, since the throw occurs inside its transition
callback. -/
def resourceFetcher (isServer : Bool) (pageEvent : PageEvent) (key : JSVal)
    (refetching : JSVal) (prevValue : FetchVal) (outcome : FetcherOutcome) :
    FetchResult × PageEvent × List Response :=
  match refetchGuard key refetching with
  | .error m => (.rejected (.exn m), pageEvent, [])
  | .ok true => (.resolved prevValue, pageEvent, [])
  | .ok false =>
    match outcome with
    | .returns v =>
      match v with
      | .resp r =>
        if isServer then
          match handleResponse true pageEvent r with
          | .ok (_, pe') => (.resolved v, pe', [])
          | .error m => (.rejected (.exn m), pageEvent, [])
        else (.resolved v, pageEvent, [r])
      | _ => (.resolved v, pageEvent, [])
    | .throws e =>
      match e with
      | .resp r =>
        if isServer then
          match handleResponse true pageEvent r with
          | .ok (_, pe') => (.resolved e, pe', [])
          | .error m => (.rejected (.exn m), pageEvent, [])
        else (.resolved e, pageEvent, [r])
      | _ => (.rejected e, pageEvent, [])

/-- A `RouteDataSource` as accepted by the `key` option: a plain value or a
nullary key function. -/
inductive KeySource where
  | val (v : JSVal) : KeySource
  | fn (f : Unit → JSVal) : KeySource

/-- One reactive evaluation of a source: a plain value is itself; a function
source is (re-)evaluated to produce the current key. -/
def resolveSource : KeySource → JSVal
  | .val v => v
  | .fn f => f ()

/-- The source expression `(options.key || true)` that `createRouteData`
passes to `createResource`: an absent key option is `undefined` (falsy), a
function is always truthy and kept, and a plain value is kept only if
truthy — a falsy literal (`false`, `null`, `undefined`, but also `0` or
`""`) is replaced by the constant source `true`. -/
def effectiveKeySource : Option KeySource → KeySource
  | none => .val (.bool true)
  | some (.fn f) => .fn f
  | some (.val v) => if truthy v then .val v else .val (.bool true)

/-- Modelled from the spec: the underlying resource primitive (solid-js
`createResource`, an out-of-scope collaborator) invokes its fetcher only
when the resolved source value is not `false`, `null` or `undefined` — "a
value, or `false`/`null`/`undefined` to denote do not fetch". -/
def sourceTriggersFetch : JSVal → Bool
  | .bool false => false
  | .null => false
  | .undef => false
  | _ => true

/-- `resources.add(refetch)` on the process-wide registry
`const resources = new Set(...)`, modelled as the set's insertion-ordered,
duplicate-free element list with handles identified by an abstract id: a
`Set` appends an element not yet present and ignores a duplicate. -/
def resourcesAdd (s : List Nat) (h : Nat) : List Nat :=
  if h ∈ s then s else s ++ [h]

/-- `resources.delete(refetch)` (run by the `onCleanup` teardown): removes
the element if present; deleting an absent element leaves the set
unchanged. -/
def resourcesDelete (s : List Nat) (h : Nat) : List Nat :=
  s.filter (fun g => g != h)

/-- Translation of the source's `refetchRouteData(key)`: iterates the
registry in insertion order and calls each registered `refetch` with `key`
(`none` models calling with no argument); the result is the trace of calls
made, as (handle, argument) pairs. -/
def refetchRouteData (s : List Nat) (key : Option JSVal) : List (Nat × Option JSVal) :=
  s.map (fun h => (h, key))

mutual

/-- No `null` anywhere inside the value.  On `null`-free keys the matcher is
total (it cannot throw), because the only throwing operation — reading
`.length` — needs a `null` operand: an `undefined` operand is unreachable
there, as `typeof` equality would force the other side to be `undefined` too
and the `a === b` shortcut would already have fired. -/
def nullFree : JSVal → Bool
  | .null => false
  | .arr xs => nullFreeList xs
  | .obj fs => nullFreeFields fs
  | _ => true

/-- `nullFree` on every element of a JS array. -/
def nullFreeList : JSList → Bool
  | .nil => true
  | .cons x t => nullFree x && nullFreeList t

/-- `nullFree` on every field value of a JS object. -/
def nullFreeFields : JSFields → Bool
  | .nil => true
  | .cons _ v t => nullFree v && nullFreeFields t

end

/-- Stated from the spec, for comparison with the code: "pattern is a strict
sub-structure (subset of keys with structurally-equal values) of candidate".
Every field of the pattern must be present in the candidate with a
structurally equal value (a pattern field bound to `undefined` also matches
an absent candidate key, since reading an absent key yields `undefined`). -/
def isSubStructure : JSFields → JSFields → Bool
  | .nil, _ => true
  | .cons k v rest, candidate =>
    decide ((candidate.lookup k).getD .undef = v) && isSubStructure rest candidate

/-- One-step unfolding of `partialDeepEqual`, usable when the pattern side
is symbolic (the compiled equations are split on `b`'s constructor). -/
theorem pde_unfold (a b : JSVal) :
    partialDeepEqual a b =
      if a = b then .ok true
      else if jsTypeof a ≠ jsTypeof b then .ok false
      else
        match lengthGuard a b with
        | .error m => .error m
        | .ok true => .ok false
        | .ok false =>
          if truthy a ∧ truthy b ∧ jsTypeof a = "object" ∧ jsTypeof b = "object" then
            match b with
            | .obj fs => partialDeepEqualFields a fs
            | .arr xs => partialDeepEqualElems a 0 xs
            | _ => .ok false
          else .ok false := by
  cases b <;> rfl

/-! Claim C1. -/

/-- C1 counterexample: the claim says a literal `false`/`null`/`undefined`
key denotes "do not fetch", but `(options.key || true)` replaces every falsy
literal with the constant source `true`, so the resource does fetch (and the
fetcher is invoked, with key `true`). -/
theorem C1_counterexample :
    sourceTriggersFetch (resolveSource (effectiveKeySource
      (some (.val (.bool false))))) = true ∧
    sourceTriggersFetch (resolveSource (effectiveKeySource
      (some (.val .null)))) = true ∧
    sourceTriggersFetch (resolveSource (effectiveKeySource
      (some (.val .undef)))) = true :=
  ⟨rfl, rfl, rfl⟩

/-- C1 (amended): "do not fetch" key semantics holds for function keys — a
nullary key function is truthy, so `(options.key || true)` keeps it, and
when it evaluates to `false`/`null`/`undefined` the resource performs no
fetch; a literal falsy key is instead coerced to the constant source `true`
(see the counterexample). -/
theorem C1_amended (f : Unit → JSVal)
    (h : f () = .bool false ∨ f () = .null ∨ f () = .undef) :
    sourceTriggersFetch (resolveSource (effectiveKeySource (some (.fn f)))) = false := by
  have hres : resolveSource (effectiveKeySource (some (.fn f))) = f () := rfl
  rw [hres]
  rcases h with h | h | h <;> rw [h] <;> rfl

/-- C1 witness: a key function constantly returning `false` yields a source
that does not trigger a fetch. -/
theorem C1_witness :
    sourceTriggersFetch (resolveSource (effectiveKeySource
      (some (.fn (fun _ => .bool false))))) = false :=
  C1_amended (fun _ => .bool false) (Or.inl rfl)

/-! Claim C2. -/

/-- C2 counterexample: the claim says every thrown value that is not a
redirect-status Response is re-raised unchanged, but the `catch` block tests
`e instanceof Response` only — a thrown Response with status 200 (not a
redirect) is caught and returned, so the wrapper's promise resolves with it
instead of rejecting. -/
theorem C2_counterexample :
    resourceFetcher false ⟨200, []⟩ (.bool true) (.bool false) (.plain .undef)
      (.throws (.resp ⟨200, []⟩)) =
    (.resolved (.resp ⟨200, []⟩), ⟨200, []⟩, [⟨200, []⟩]) := by decide

/-- C2 (amended): every thrown value that is not a Response instance (of any
status) is re-raised unchanged by the wrapper, propagating verbatim to the
resource's error state; a thrown Response instance — redirect-status or
not — is caught by the `e instanceof Response` test and, provided handling
it does not itself throw (on the client always, since handling is deferred
with `setTimeout`; on the server whenever the Response is not a redirect or
carries a `Location` header), resolves the wrapper's promise with that
Response instead of failing. -/
theorem C2_amended :
    (∀ (isServer : Bool) (pageEvent : PageEvent) (key refetching : JSVal)
      (prevValue e : FetchVal),
      refetchGuard key refetching = .ok false →
      (∀ r : Response, e ≠ .resp r) →
      resourceFetcher isServer pageEvent key refetching prevValue (.throws e) =
        (.rejected e, pageEvent, [])) ∧
    (∀ (isServer : Bool) (pageEvent : PageEvent) (key refetching : JSVal)
      (prevValue : FetchVal) (r : Response),
      refetchGuard key refetching = .ok false →
      (isServer = true → isRedirectResponse r = true →
        (headersGet r.headers LocationHeader).isSome = true) →
      (resourceFetcher isServer pageEvent key refetching prevValue
        (.throws (.resp r))).1 = .resolved (.resp r)) := by
  constructor
  · intro isServer pageEvent key refetching prevValue e hguard hnr
    unfold resourceFetcher
    rw [hguard]
    cases e with
    | plain v => rfl
    | exn m => rfl
    | resp r => exact absurd rfl (hnr r)
  · intro isServer pageEvent key refetching prevValue r hguard hloc
    cases isServer with
    | false => simp [resourceFetcher, hguard]
    | true =>
      by_cases hred : isRedirectResponse r = true
      · obtain ⟨url, hurl⟩ := Option.isSome_iff_exists.mp (hloc rfl hred)
        rcases hcase : handleResponse true pageEvent r with m | x
        · exfalso
          simp [handleResponse, hred, hurl] at hcase
        · obtain ⟨act, pe'⟩ := x
          simp [resourceFetcher, hguard, hcase]
      · have hh : handleResponse true pageEvent r = .ok (.noNav, pageEvent) := by
          simp [handleResponse, hred]
        simp [resourceFetcher, hguard, hh]

/-- C2 witness: a thrown plain string rejects the wrapper's promise with
exactly that value, while a thrown non-redirect 200 Response on the server
resolves it with that Response. -/
theorem C2_witness :
    resourceFetcher true ⟨200, []⟩ (.num 1) (.bool false) (.plain .undef)
      (.throws (.plain (.str "boom"))) =
      (.rejected (.plain (.str "boom")), ⟨200, []⟩, []) ∧
    (resourceFetcher true ⟨200, []⟩ (.num 1) (.bool false) (.plain .undef)
      (.throws (.resp ⟨200, []⟩))).1 = .resolved (.resp ⟨200, []⟩) :=
  ⟨C2_amended.1 true ⟨200, []⟩ (.num 1) (.bool false) (.plain .undef)
      (.plain (.str "boom")) (by decide) (fun r h => by cases h),
    C2_amended.2 true ⟨200, []⟩ (.num 1) (.bool false) (.plain .undef)
      ⟨200, []⟩ (by decide) (fun _ h => absurd h (by decide))⟩

/-! Claim C3. -/

/-- C3: a refetch that carries an explicit refresh key (`info.refetching`
truthy and not the sentinel `true`) which does not partially match the
current key short-circuits — the wrapper returns the previous cached value,
performs no side effect, and the user fetcher is never invoked (the result
is the same for every fetcher behaviour `outcome`). -/
theorem C3_noop_refetch (isServer : Bool) (pageEvent : PageEvent)
    (key refetching : JSVal) (prevValue : FetchVal) (outcome : FetcherOutcome)
    (h1 : truthy refetching = true) (h2 : refetching ≠ .bool true)
    (h3 : partialMatch key refetching = .ok false) :
    resourceFetcher isServer pageEvent key refetching prevValue outcome =
      (.resolved prevValue, pageEvent, []) := by
  unfold resourceFetcher refetchGuard
  rw [h1, h3]
  simp [h2]

/-- C3 witness: refetching with refresh key `2` while the current key is `1`
returns the cached value and ignores the fetcher (which would have produced
`9`). -/
theorem C3_witness :
    resourceFetcher false ⟨200, []⟩ (.num 1) (.num 2) (.plain (.str "cached"))
      (.returns (.plain (.num 9))) =
    (.resolved (.plain (.str "cached")), ⟨200, []⟩, []) :=
  C3_noop_refetch false ⟨200, []⟩ (.num 1) (.num 2) (.plain (.str "cached"))
    (.returns (.plain (.num 9))) (by decide) (by decide) (by decide)

/-! Claim C4. -/

/-- C4 counterexample: the claim says a thrown redirect Response is always
re-surfaced as the resolved value, but on the server a thrown redirect with
no `Location` header makes `handleResponse` (called inside the `catch`)
throw a `TypeError`, so the wrapper's promise rejects instead of resolving
with the Response. -/
theorem C4_counterexample :
    resourceFetcher true ⟨200, []⟩ (.bool true) (.bool false) (.plain .undef)
      (.throws (.resp ⟨302, []⟩)) =
    (.rejected (.exn nullUrlError), ⟨200, []⟩, []) := by decide

/-- C4 (amended): a redirect-status Response produced by the fetcher —
whether returned or thrown — is never surfaced as a fetch failure, provided
handling it does not itself throw: on the client always (handling is
deferred with `setTimeout`), and on the server whenever the redirect carries
a `Location` header.  In particular a thrown redirect Response becomes the
resource's resolved value. -/
theorem C4_amended (isServer : Bool) (pageEvent : PageEvent)
    (key refetching : JSVal) (prevValue : FetchVal) (r : Response)
    (hguard : refetchGuard key refetching = .ok false)
    (hred : isRedirectResponse r = true)
    (hloc : isServer = true → (headersGet r.headers LocationHeader).isSome = true) :
    (resourceFetcher isServer pageEvent key refetching prevValue
      (.throws (.resp r))).1 = .resolved (.resp r) ∧
    (resourceFetcher isServer pageEvent key refetching prevValue
      (.returns (.resp r))).1 = .resolved (.resp r) := by
  cases isServer with
  | false =>
    exact ⟨by simp [resourceFetcher, hguard], by simp [resourceFetcher, hguard]⟩
  | true =>
    obtain ⟨url, hurl⟩ := Option.isSome_iff_exists.mp (hloc rfl)
    rcases hcase : handleResponse true pageEvent r with m | x
    · exfalso
      simp [handleResponse, hred, hurl] at hcase
    · obtain ⟨act, pe'⟩ := x
      exact ⟨by simp [resourceFetcher, hguard, hcase],
        by simp [resourceFetcher, hguard, hcase]⟩

/-- C4 witness: on the server, a thrown 302 Response with a `Location`
header resolves the wrapper's promise with that Response. -/
theorem C4_witness :
    (resourceFetcher true ⟨200, []⟩ (.num 1) (.bool false) (.plain .undef)
      (.throws (.resp ⟨302, [(LocationHeader, "/login")]⟩))).1 =
      .resolved (.resp ⟨302, [(LocationHeader, "/login")]⟩) :=
  (C4_amended true ⟨200, []⟩ (.num 1) (.bool false) (.plain .undef)
    ⟨302, [(LocationHeader, "/login")]⟩ (by decide) (by decide)
    (fun _ => by decide)).1

/-! Claim C10. -/

/-- C10: handling a redirect-status Response that lacks a `Location` header
throws — `headers.get(LocationHeader)` returns `null` and the navigation
branch calls `startsWith` on it — instead of navigating or completing as a
no-op. -/
theorem C10_missing_location (isServer : Bool) (pageEvent : PageEvent)
    (r : Response) (hred : isRedirectResponse r = true)
    (hloc : headersGet r.headers LocationHeader = none) :
    handleResponse isServer pageEvent r = .error nullUrlError := by
  simp [handleResponse, hred, hloc]

/-- C10 witness: a bare 302 Response with no headers makes `handleResponse`
throw the `TypeError`. -/
theorem C10_witness :
    handleResponse true ⟨200, []⟩ ⟨302, []⟩ = .error nullUrlError :=
  C10_missing_location true ⟨200, []⟩ ⟨302, []⟩ (by decide) (by decide)

/-! Claim C7. -/

/-- A non-empty array candidate never deep-matches the empty array pattern:
the `a.length && !b.length` guard fires. -/
theorem pde_cons_nil (x : JSVal) (t : JSList) :
    partialDeepEqual (.arr (.cons x t)) (.arr .nil) = .ok false := by
  have hlen : (JSList.cons x t).length = t.length + 1 := rfl
  have hpos : ¬ ((t.length : Int) + 1 = 0) := by omega
  simp [partialDeepEqual, jsTypeof, lengthGuard, lengthProp, truthy, hlen,
    JSList.length, hpos]

/-- C7: the empty refresh-key sequence matches only the empty candidate —
`partialMatch x []` is `false` for every `x` other than `[]` (a non-array
`x` is first wrapped into the non-empty array `[x]`), and
`partialMatch [] []` is `true`. -/
theorem C7_empty_refresh_key :
    (∀ x : JSVal, x ≠ .arr .nil → partialMatch x (.arr .nil) = .ok false) ∧
    partialMatch (.arr .nil) (.arr .nil) = .ok true := by
  refine ⟨?_, by decide⟩
  intro x hx
  cases x with
  | arr xs =>
    cases xs with
    | nil => exact absurd rfl hx
    | cons h t => exact pde_cons_nil h t
  | undef => exact pde_cons_nil .undef .nil
  | null => exact pde_cons_nil .null .nil
  | bool b => exact pde_cons_nil (.bool b) .nil
  | num n => exact pde_cons_nil (.num n) .nil
  | str s => exact pde_cons_nil (.str s) .nil
  | obj fs => exact pde_cons_nil (.obj fs) .nil

/-- C7 witness: the scalar candidate `5` does not match the empty refresh
key, while the empty candidate does. -/
theorem C7_witness :
    partialMatch (.num 5) (.arr .nil) = .ok false ∧
    partialMatch (.arr .nil) (.arr .nil) = .ok true :=
  ⟨C7_empty_refresh_key.1 (.num 5) (by decide), C7_empty_refresh_key.2⟩

/-! Claim C5. -/

/-- Reading back a header after `Headers.set`: the set name now maps to the
written value, every other name is untouched. -/
theorem headersGet_setHeader (hs : List (String × String)) (n m v : String) :
    headersGet (setHeader hs m v) n = if n = m then some v else headersGet hs n := by
  induction hs with
  | nil =>
    by_cases h : n = m
    · simp [setHeader, headersGet, h]
    · simp [setHeader, headersGet, h, Ne.symm h]
  | cons p rest ih =>
    by_cases hpm : p.1 = m
    · by_cases hnm : n = m
      · simp [setHeader, headersGet, hpm, hnm, ih]
      · simp [setHeader, headersGet, hpm, hnm, Ne.symm hnm, ih]
    · by_cases hnp : n = p.1
      · have hnm : ¬ n = m := fun hh => hpm (by rw [← hnp, hh])
        simp [setHeader, headersGet, hpm, hnp.symm, hnm, Ne.symm hnm]
      · simp [setHeader, headersGet, hpm, hnp, Ne.symm hnp, ih]

/-- `headersGet` over an append: the left list wins when it binds the
name. -/
theorem headersGet_append (l1 l2 : List (String × String)) (n : String) :
    headersGet (l1 ++ l2) n =
      match headersGet l1 n with
      | some v => some v
      | none => headersGet l2 n := by
  induction l1 with
  | nil => simp [headersGet]
  | cons p rest ih => by_cases h : p.1 = n <;> simp [headersGet, h, ih]

/-- Folding `Headers.set` over a list of (name, value) pairs realises
last-write-wins: reading a name afterwards returns its last write in the
list, falling back to the original map. -/
theorem headersGet_foldl (l : List (String × String)) (hs : List (String × String))
    (n : String) :
    headersGet (l.foldl (fun acc p => setHeader acc p.1 p.2) hs) n =
      match headersGet l.reverse n with
      | some v => some v
      | none => headersGet hs n := by
  induction l generalizing hs with
  | nil => simp [headersGet]
  | cons p rest ih =>
    simp only [List.foldl_cons, List.reverse_cons]
    rw [ih, headersGet_append]
    rcases headersGet rest.reverse n with _ | v
    · by_cases h : n = p.1
      · simp [headersGet, headersGet_setHeader, h]
      · simp [headersGet, headersGet_setHeader, h, Ne.symm h]
    · simp

/-- C5: handling a redirect Response on the server (when the redirect
carries a `Location` header, so that the navigation branch does not throw)
sets the outer page response's status code to the redirect's status and
copies every header of the redirect response under its own name into the
outer header collection, later writes of the same name overwriting earlier
ones — the name's last occurrence in the redirect's header list wins. -/
theorem C5_server_redirect_mutation (pageEvent : PageEvent) (r : Response)
    (hred : isRedirectResponse r = true)
    (hloc : (headersGet r.headers LocationHeader).isSome = true) :
    ∃ act pe', handleResponse true pageEvent r = .ok (act, pe') ∧
      pe'.statusCode = r.status ∧
      ∀ n v, headersGet r.headers.reverse n = some v →
        headersGet pe'.responseHeaders n = some v := by
  obtain ⟨url, hurl⟩ := Option.isSome_iff_exists.mp hloc
  refine ⟨if url.startsWith "/" then NavAction.navigateReplace url else NavAction.noNav,
    ⟨r.status, r.headers.foldl (fun hs p => setHeader hs p.1 p.2)
      pageEvent.responseHeaders⟩, ?_, rfl, ?_⟩
  · simp [handleResponse, hred, hurl]
  · intro n v hnv
    show headersGet (r.headers.foldl (fun hs p => setHeader hs p.1 p.2)
      pageEvent.responseHeaders) n = some v
    rw [headersGet_foldl, hnv]

/-- C5 witness: a 302 redirect to `/login` carrying a `Set-Cookie` header,
handled on a server whose response already holds a `Content-Type` header. -/
theorem C5_witness :
    ∃ act pe', handleResponse true ⟨200, [("Content-Type", "text/html")]⟩
        ⟨302, [(LocationHeader, "/login"), ("Set-Cookie", "sid=1")]⟩ = .ok (act, pe') ∧
      pe'.statusCode = 302 ∧
      ∀ n v, headersGet ([(LocationHeader, "/login"), ("Set-Cookie", "sid=1")] :
          List (String × String)).reverse n = some v →
        headersGet pe'.responseHeaders n = some v :=
  C5_server_redirect_mutation ⟨200, [("Content-Type", "text/html")]⟩
    ⟨302, [(LocationHeader, "/login"), ("Set-Cookie", "sid=1")]⟩ (by decide) (by decide)

/-! Claim C8. -/

/-- C8: the refetch registry behaves as a set with one handle per live
instance — adding a fresh handle registers it exactly once, add followed by
delete restores the registry, deleting an absent handle is a no-op, and
after a handle's teardown a match-all `refetchRouteData()` call invokes
every remaining handle exactly once and never the removed one (and, being a
total function, never throws). -/
theorem C8_registry_lifecycle (s : List Nat) (h : Nat) (hnd : s.Nodup) :
    (resourcesAdd s h).count h = 1 ∧
    (h ∉ s → resourcesDelete (resourcesAdd s h) h = s) ∧
    (h ∉ s → resourcesDelete s h = s) ∧
    (∀ key, (refetchRouteData (resourcesDelete (resourcesAdd s h) h) key).map
      Prod.fst = s.filter (fun g => g != h)) ∧
    (∀ g, g ∈ s → g ≠ h →
      ((refetchRouteData (resourcesDelete (resourcesAdd s h) h) none).map
        Prod.fst).count g = 1) ∧
    h ∉ (refetchRouteData (resourcesDelete (resourcesAdd s h) h) none).map Prod.fst := by
  have hdel : ∀ key : Option JSVal,
      (refetchRouteData (resourcesDelete (resourcesAdd s h) h) key).map Prod.fst =
        s.filter (fun g => g != h) := by
    intro key
    simp only [refetchRouteData, List.map_map]
    have hmapid : ((fun p => p.1) ∘ fun g => (g, key)) = (id : Nat → Nat) := rfl
    rw [hmapid, List.map_id]
    by_cases hmem : h ∈ s
    · simp [resourcesAdd, resourcesDelete, hmem]
    · have hadd : resourcesAdd s h = s ++ [h] := by simp [resourcesAdd, hmem]
      simp [resourcesDelete, hadd, List.filter_append]
  have hself : h ∉ s → s.filter (fun g => g != h) = s := fun hmem =>
    List.filter_eq_self.mpr (fun a ha => by
      simp only [bne_iff_ne, ne_eq, decide_eq_true_eq]
      exact fun hEq => hmem (hEq ▸ ha))
  refine ⟨?_, ?_, ?_, hdel, ?_, ?_⟩
  · by_cases hmem : h ∈ s
    · simpa [resourcesAdd, hmem] using List.count_eq_one_of_mem hnd hmem
    · have hadd : resourcesAdd s h = s ++ [h] := by simp [resourcesAdd, hmem]
      simp [hadd, List.count_append, List.count_eq_zero_of_not_mem hmem]
  · intro hmem
    have hadd : resourcesAdd s h = s ++ [h] := by simp [resourcesAdd, hmem]
    rw [hadd]
    show (s ++ [h]).filter (fun g => g != h) = s
    rw [List.filter_append]
    simp [hself hmem]
  · intro hmem
    exact hself hmem
  · intro g hg hgh
    rw [hdel none]
    have hmemf : g ∈ s.filter (fun x => x != h) := by
      simp [List.mem_filter, hg, bne_iff_ne, hgh]
    exact List.count_eq_one_of_mem (hnd.filter _) hmemf
  · rw [hdel none]
    simp [List.mem_filter]

/-! Helper lemmas about the matcher, used by claims C6 and C9. -/

/-- Only `undefined` has `typeof` `"undefined"`. -/
theorem eq_undef_of_jsTypeof : ∀ b : JSVal, jsTypeof b = "undefined" → b = .undef
  | .undef, _ => rfl
  | .null, h => absurd (show ("object" : String) = "undefined" from h) (by decide)
  | .bool _, h => absurd (show ("boolean" : String) = "undefined" from h) (by decide)
  | .num _, h => absurd (show ("number" : String) = "undefined" from h) (by decide)
  | .str _, h => absurd (show ("string" : String) = "undefined" from h) (by decide)
  | .arr _, h => absurd (show ("object" : String) = "undefined" from h) (by decide)
  | .obj _, h => absurd (show ("object" : String) = "undefined" from h) (by decide)

/-- Reading `.length` only throws on `null` and `undefined`. -/
theorem lengthProp_ok : ∀ a : JSVal, a ≠ .null → a ≠ .undef → ∃ v, lengthProp a = .ok v
  | .undef, _, h => absurd rfl h
  | .null, h, _ => absurd rfl h
  | .bool _, _, _ => ⟨.undef, rfl⟩
  | .num _, _, _ => ⟨.undef, rfl⟩
  | .str _, _, _ => ⟨_, rfl⟩
  | .arr _, _, _ => ⟨_, rfl⟩
  | .obj _, _, _ => ⟨_, rfl⟩

/-- The `a.length && !b.length` guard settles without throwing whenever
neither operand is `null` or `undefined`. -/
theorem lengthGuard_ok (a b : JSVal) (ha : a ≠ .null) (ha2 : a ≠ .undef)
    (hb : b ≠ .null) (hb2 : b ≠ .undef) : ∃ g, lengthGuard a b = .ok g := by
  obtain ⟨la, hla⟩ := lengthProp_ok a ha ha2
  by_cases ht : truthy la = true
  · obtain ⟨lb, hlb⟩ := lengthProp_ok b hb hb2
    exact ⟨!truthy lb, by simp [lengthGuard, hla, hlb, ht]⟩
  · exact ⟨false, by simp [lengthGuard, hla, ht]⟩

/-- A non-`null` value of `typeof` `"object"` is truthy (it is an array or
an object). -/
theorem truthy_of_object : ∀ a : JSVal, jsTypeof a = "object" → a ≠ .null →
    truthy a = true
  | .undef, h, _ => absurd (show ("undefined" : String) = "object" from h) (by decide)
  | .null, _, hn => absurd rfl hn
  | .bool _, h, _ => absurd (show ("boolean" : String) = "object" from h) (by decide)
  | .num _, h, _ => absurd (show ("number" : String) = "object" from h) (by decide)
  | .str _, h, _ => absurd (show ("string" : String) = "object" from h) (by decide)
  | .arr _, _, _ => rfl
  | .obj _, _, _ => rfl

/-- Field values of a `null`-free object are `null`-free. -/
theorem nullFree_of_mem_fields : ∀ (fs : JSFields), nullFreeFields fs = true →
    ∀ k v, (k, v) ∈ fs.toList → nullFree v = true
  | .nil, _, k, v, hm => by simp [JSFields.toList] at hm
  | .cons k' v' t, hf, k, v, hm => by
    simp only [JSFields.toList, List.mem_cons] at hm
    simp only [nullFreeFields, Bool.and_eq_true] at hf
    rcases hm with hm | hm
    · cases hm; exact hf.1
    · exact nullFree_of_mem_fields t hf.2 k v hm

/-- Elements of a `null`-free array are `null`-free. -/
theorem nullFree_of_mem_list : ∀ (xs : JSList), nullFreeList xs = true →
    ∀ x, x ∈ xs.toList → nullFree x = true
  | .nil, _, x, hm => by simp [JSList.toList] at hm
  | .cons x' t, hl, x, hm => by
    simp only [JSList.toList, List.mem_cons] at hm
    simp only [nullFreeList, Bool.and_eq_true] at hl
    rcases hm with hm | hm
    · cases hm; exact hl.1
    · exact nullFree_of_mem_list t hl.2 x hm

/-- Field lookup on a `null`-free object yields a `null`-free value. -/
theorem nullFree_lookup : ∀ (fs : JSFields), nullFreeFields fs = true →
    ∀ k, nullFree ((fs.lookup k).getD .undef) = true
  | .nil, _, k => by simp [JSFields.lookup, nullFree]
  | .cons k' v t, hf, k => by
    simp only [nullFreeFields, Bool.and_eq_true] at hf
    by_cases h : k' = k
    · simp [JSFields.lookup, h, hf.1]
    · have hstep : JSFields.lookup (.cons k' v t) k = t.lookup k := by
        simp [JSFields.lookup, h]
      rw [hstep]
      exact nullFree_lookup t hf.2 k

/-- Index lookup on a `null`-free array yields a `null`-free value. -/
theorem nullFree_arrIndex : ∀ (xs : JSList) (i : Nat) (k : String),
    nullFreeList xs = true → nullFree (arrIndex i k xs) = true
  | .nil, _, _, _ => by simp [arrIndex, nullFree]
  | .cons x t, i, k, hl => by
    simp only [nullFreeList, Bool.and_eq_true] at hl
    by_cases h : toString i = k
    · simp [arrIndex, h, hl.1]
    · have hstep : arrIndex i k (.cons x t) = arrIndex (i + 1) k t := by
        simp [arrIndex, h]
      rw [hstep]
      exact nullFree_arrIndex t (i + 1) k hl.2

/-- Property reads preserve `null`-freedom (an absent property is
`undefined`, which is `null`-free). -/
theorem nullFree_getField (a : JSVal) (k : String) (ha : nullFree a = true) :
    nullFree (getField a k) = true := by
  cases a with
  | obj fs => exact nullFree_lookup fs (by simpa [nullFree] using ha) k
  | arr xs =>
    by_cases h : k = "length"
    · simp [getField, h, nullFree]
    · have hstep : getField (.arr xs) k = arrIndex 0 k xs := by
        simp [getField, h]
      rw [hstep]
      exact nullFree_arrIndex xs 0 k (by simpa [nullFree] using ha)
  | undef => rfl
  | null => rfl
  | bool b => rfl
  | num n => rfl
  | str s => rfl

/-- Field values are smaller than the object that holds them. -/
theorem sizeOf_lt_of_mem_fields : ∀ (fs : JSFields) (k : String) (v : JSVal),
    (k, v) ∈ fs.toList → sizeOf v < sizeOf fs
  | .nil, k, v, hm => by simp [JSFields.toList] at hm
  | .cons k' v' t, k, v, hm => by
    simp only [JSFields.toList, List.mem_cons] at hm
    rcases hm with hm | hm
    · cases hm; simp; omega
    · have := sizeOf_lt_of_mem_fields t k v hm; simp; omega

/-- Elements are smaller than the array that holds them. -/
theorem sizeOf_lt_of_mem_list : ∀ (xs : JSList) (x : JSVal),
    x ∈ xs.toList → sizeOf x < sizeOf xs
  | .nil, x, hm => by simp [JSList.toList] at hm
  | .cons x' t, x, hm => by
    simp only [JSList.toList, List.mem_cons] at hm
    rcases hm with hm | hm
    · cases hm; simp; omega
    · have := sizeOf_lt_of_mem_list t x hm; simp; omega

/-- The object key walk settles without throwing as soon as every recursive
comparison it makes does. -/
theorem pdeFields_total_of : ∀ (fs : JSFields) (a : JSVal),
    (∀ k v, (k, v) ∈ fs.toList → ∃ r, partialDeepEqual (getField a k) v = .ok r) →
    ∃ r, partialDeepEqualFields a fs = .ok r
  | .nil, _, _ => ⟨true, rfl⟩
  | .cons k v t, a, hpt => by
    obtain ⟨r, hr⟩ := hpt k v (by simp [JSFields.toList])
    cases r with
    | false => exact ⟨false, by simp [partialDeepEqualFields, hr]⟩
    | true =>
      obtain ⟨r', hr'⟩ := pdeFields_total_of t a (fun k' v' hm =>
        hpt k' v' (by simp only [JSFields.toList, List.mem_cons]; exact Or.inr hm))
      exact ⟨r', by simp [partialDeepEqualFields, hr, hr']⟩

/-- The array key walk settles without throwing as soon as every recursive
comparison it makes does. -/
theorem pdeElems_total_of : ∀ (xs : JSList) (a : JSVal) (i : Nat),
    (∀ (k : String) (x : JSVal), x ∈ xs.toList →
      ∃ r, partialDeepEqual (getField a k) x = .ok r) →
    ∃ r, partialDeepEqualElems a i xs = .ok r
  | .nil, _, _, _ => ⟨true, rfl⟩
  | .cons x t, a, i, hpt => by
    obtain ⟨r, hr⟩ := hpt (toString i) x (by simp [JSList.toList])
    cases r with
    | false => exact ⟨false, by simp [partialDeepEqualElems, hr]⟩
    | true =>
      obtain ⟨r', hr'⟩ := pdeElems_total_of t a (i + 1) (fun k' x' hm =>
        hpt k' x' (by simp only [JSList.toList, List.mem_cons]; exact Or.inr hm))
      exact ⟨r', by simp [partialDeepEqualElems, hr, hr']⟩

/-- Totality of `partialDeepEqual` on `null`-free operands, by strong
induction on the size of the pattern side `b`. -/
theorem pde_total_aux : ∀ n : Nat, ∀ b a : JSVal, sizeOf b ≤ n →
    nullFree a = true → nullFree b = true → ∃ r, partialDeepEqual a b = .ok r := by
  intro n
  induction n with
  | zero =>
    intro b a hsz _ _
    exfalso
    have hpos : 0 < sizeOf b := by cases b <;> simp
    omega
  | succ n ih =>
    intro b a hsz ha hb
    by_cases heq : a = b
    · exact ⟨true, by rw [pde_unfold]; simp [heq]⟩
    by_cases hty : jsTypeof a = jsTypeof b
    case neg => exact ⟨false, by rw [pde_unfold]; simp [heq, hty]⟩
    case pos =>
    have hanull : a ≠ .null := by
      intro hh; rw [hh] at ha; exact absurd ha (by decide)
    have hbnull : b ≠ .null := by
      intro hh; rw [hh] at hb; exact absurd hb (by decide)
    have haundef : a ≠ .undef := by
      intro hh
      have hbu : b = .undef := eq_undef_of_jsTypeof b (by rw [← hty, hh]; rfl)
      exact heq (hh.trans hbu.symm)
    have hbundef : b ≠ .undef := by
      intro hh
      have hau : a = .undef := eq_undef_of_jsTypeof a (by rw [hty, hh]; rfl)
      exact heq (hau.trans hh.symm)
    obtain ⟨g, hg⟩ := lengthGuard_ok a b hanull haundef hbnull hbundef
    cases g with
    | true => exact ⟨false, by rw [pde_unfold]; simp [heq, hty, hg]⟩
    | false =>
      cases b with
      | undef => exact absurd rfl hbundef
      | null => exact absurd rfl hbnull
      | bool b' =>
        exact ⟨false, by
          rw [pde_unfold]
          simp [heq, hty, hg, jsTypeof,
            show ¬ (("boolean" : String) = "object") from by decide]⟩
      | num m =>
        exact ⟨false, by
          rw [pde_unfold]
          simp [heq, hty, hg, jsTypeof,
            show ¬ (("number" : String) = "object") from by decide]⟩
      | str s =>
        exact ⟨false, by
          rw [pde_unfold]
          simp [heq, hty, hg, jsTypeof,
            show ¬ (("string" : String) = "object") from by decide]⟩
      | arr xs =>
        have hxs : nullFreeList xs = true := by simpa [nullFree] using hb
        have hpt : ∀ (k : String) (x : JSVal), x ∈ xs.toList →
            ∃ r, partialDeepEqual (getField a k) x = .ok r := by
          intro k x hm
          refine ih x (getField a k) ?_ (nullFree_getField a k ha)
            (nullFree_of_mem_list xs hxs x hm)
          have h1 := sizeOf_lt_of_mem_list xs x hm
          have h2 : sizeOf (JSVal.arr xs) = 1 + sizeOf xs := by simp
          omega
        obtain ⟨r, hr⟩ := pdeElems_total_of xs a 0 hpt
        have ht1 : truthy a = true := truthy_of_object a (by rw [hty]; rfl) hanull
        have ht3 : jsTypeof a = "object" := by rw [hty]; rfl
        exact ⟨r, by
          rw [pde_unfold]
          simp [heq, hty, hg, ht1, ht3, hr,
            show jsTypeof (JSVal.arr xs) = "object" from rfl,
            show truthy (JSVal.arr xs) = true from rfl]⟩
      | obj fs =>
        have hfs : nullFreeFields fs = true := by simpa [nullFree] using hb
        have hpt : ∀ k v, (k, v) ∈ fs.toList →
            ∃ r, partialDeepEqual (getField a k) v = .ok r := by
          intro k v hm
          refine ih v (getField a k) ?_ (nullFree_getField a k ha)
            (nullFree_of_mem_fields fs hfs k v hm)
          have h1 := sizeOf_lt_of_mem_fields fs k v hm
          have h2 : sizeOf (JSVal.obj fs) = 1 + sizeOf fs := by simp
          omega
        obtain ⟨r, hr⟩ := pdeFields_total_of fs a hpt
        have ht1 : truthy a = true := truthy_of_object a (by rw [hty]; rfl) hanull
        have ht3 : jsTypeof a = "object" := by rw [hty]; rfl
        exact ⟨r, by
          rw [pde_unfold]
          simp [heq, hty, hg, ht1, ht3, hr,
            show jsTypeof (JSVal.obj fs) = "object" from rfl,
            show truthy (JSVal.obj fs) = true from rfl]⟩

/-- Totality of `partialDeepEqual` on `null`-free operands. -/
theorem pde_total (a b : JSVal) (ha : nullFree a = true) (hb : nullFree b = true) :
    ∃ r, partialDeepEqual a b = .ok r :=
  pde_total_aux (sizeOf b) b a le_rfl ha hb

/-- `ensureQueryKeyArray` preserves `null`-freedom. -/
theorem nullFree_ensure : ∀ x : JSVal, nullFree x = true →
    nullFree (ensureQueryKeyArray x) = true
  | .arr _, hx => hx
  | .null, hx => absurd hx (by decide)
  | .undef, _ => rfl
  | .bool _, _ => rfl
  | .num _, _ => rfl
  | .str _, _ => rfl
  | .obj fs, hx => by
    show (nullFree (.obj fs) && nullFreeList .nil) = true
    simp [hx, nullFreeList]

/-! Claim C9. -/

/-- C9 counterexample: the claim says `partialMatch` is total and never
throws, naming `partialMatch([null], [{}])` as an example, but exactly that
input reaches `null.length` inside `partialDeepEqual` and throws a
`TypeError`. -/
theorem C9_counterexample :
    partialMatch (.arr (.cons .null .nil)) (.arr (.cons (.obj .nil) .nil)) =
      .error nullLengthError := by decide

/-- C9 (amended): `partialMatch` returns a Boolean on every pair of keys in
which `null` does not occur; when a `null` candidate value meets a non-null
object pattern value (or an array/object with truthy length meets `null`),
the `.length` read throws a `TypeError` (see the counterexample). -/
theorem C9_amended (a b : JSVal) (ha : nullFree a = true) (hb : nullFree b = true) :
    ∃ r, partialMatch a b = .ok r :=
  pde_total (ensureQueryKeyArray a) (ensureQueryKeyArray b)
    (nullFree_ensure a ha) (nullFree_ensure b hb)

/-- C9 witness: on the `null`-free pair `{id: 1}` vs `{id: 1}` the matcher
settles with a Boolean. -/
theorem C9_witness :
    ∃ r, partialMatch (.obj (.cons "id" (.num 1) .nil))
      (.obj (.cons "id" (.num 1) .nil)) = .ok r :=
  C9_amended (.obj (.cons "id" (.num 1) .nil)) (.obj (.cons "id" (.num 1) .nil))
    (by decide) (by decide)

/-! Claim C6. -/

/-- Reflexivity of the matcher: structurally equal values always deep-match
(the `a === b` shortcut). -/
theorem pde_refl (v : JSVal) : partialDeepEqual v v = .ok true := by
  rw [pde_unfold]; simp

/-- The object key walk succeeds on every field of a sparse sub-structure
pattern: each pattern field is read back structurally equal from the
candidate, and the recursive comparison hits the equality shortcut. -/
theorem pdeFields_of_sub : ∀ (pfs cfs : JSFields), isSubStructure pfs cfs = true →
    partialDeepEqualFields (.obj cfs) pfs = .ok true
  | .nil, _, _ => rfl
  | .cons k v t, cfs, h => by
    simp only [isSubStructure, Bool.and_eq_true, decide_eq_true_eq] at h
    have hget : getField (.obj cfs) k = v := by simp [getField, h.1]
    simp [partialDeepEqualFields, hget, pde_refl, pdeFields_of_sub t cfs h.2]

/-- A structural mismatch at a non-object pattern value (different type, or
same non-object type but different value) makes the comparison `false`
without throwing. -/
theorem pde_ne_false (w v : JSVal) (hne : w ≠ v)
    (h : jsTypeof v ≠ "object" ∨ jsTypeof w ≠ jsTypeof v) :
    partialDeepEqual w v = .ok false := by
  by_cases hty : jsTypeof w = jsTypeof v
  · have hvno : jsTypeof v ≠ "object" := by
      rcases h with h | h
      · exact h
      · exact absurd hty h
    have hwnull : w ≠ .null := fun hh => hvno (by rw [← hty, hh]; rfl)
    have hvnull : v ≠ .null := fun hh => hvno (by rw [hh]; rfl)
    have hwundef : w ≠ .undef := by
      intro hh
      have hv : v = .undef := eq_undef_of_jsTypeof v (by rw [← hty, hh]; rfl)
      exact hne (hh.trans hv.symm)
    have hvundef : v ≠ .undef := by
      intro hh
      have hw : w = .undef := eq_undef_of_jsTypeof w (by rw [hty, hh]; rfl)
      exact hne (hw.trans hh.symm)
    obtain ⟨g, hg⟩ := lengthGuard_ok w v hwnull hwundef hvnull hvundef
    cases g with
    | true => rw [pde_unfold]; simp [hne, hty, hg]
    | false => rw [pde_unfold]; simp [hne, hty, hg, hvno]
  · rw [pde_unfold]; simp [hne, hty]

/-- The object key walk fails (with `false`, not a throw) as soon as one
field comparison fails and the field comparisons before it settle. -/
theorem pdeFields_false_of : ∀ (fs : JSFields) (a : JSVal),
    (∀ k v, (k, v) ∈ fs.toList → ∃ r, partialDeepEqual (getField a k) v = .ok r) →
    (∃ k v, (k, v) ∈ fs.toList ∧ partialDeepEqual (getField a k) v = .ok false) →
    partialDeepEqualFields a fs = .ok false
  | .nil, _, _, hbad => by
    obtain ⟨k, v, hm, _⟩ := hbad
    simp [JSFields.toList] at hm
  | .cons k0 v0 t, a, hok, hbad => by
    obtain ⟨r, hr⟩ := hok k0 v0 (by simp [JSFields.toList])
    cases r with
    | false => simp [partialDeepEqualFields, hr]
    | true =>
      obtain ⟨k, v, hm, hbadv⟩ := hbad
      have hm' : (k, v) = (k0, v0) ∨ (k, v) ∈ t.toList := by
        simpa [JSFields.toList] using hm
      have hmt : (k, v) ∈ t.toList := by
        rcases hm' with he | hmt
        · exfalso
          cases he
          rw [hr] at hbadv
          simp at hbadv
        · exact hmt
      have hrec := pdeFields_false_of t a
        (fun k' v' hmm =>
          hok k' v' (by simp only [JSFields.toList, List.mem_cons]; exact Or.inr hmm))
        ⟨k, v, hmt, hbadv⟩
      simp [partialDeepEqualFields, hr, hrec]

/-- With unique keys, a field read realises membership. -/
theorem lookup_eq_of_mem_nodup : ∀ (fs : JSFields) (k : String) (v : JSVal),
    (k, v) ∈ fs.toList → (fs.toList.map Prod.fst).Nodup → fs.lookup k = some v
  | .nil, k, v, hm, _ => by simp [JSFields.toList] at hm
  | .cons k0 v0 t, k, v, hm, hnd => by
    simp only [JSFields.toList, List.mem_cons] at hm
    simp only [JSFields.toList, List.map_cons, List.nodup_cons] at hnd
    rcases hm with he | hm
    · cases he; simp [JSFields.lookup]
    · have hk : k ≠ k0 := by
        intro hh
        subst hh
        exact hnd.1 (List.mem_map.mpr ⟨(k, v), hm, rfl⟩)
      have hstep : JSFields.lookup (.cons k0 v0 t) k = t.lookup k := by
        simp [JSFields.lookup, Ne.symm hk]
      rw [hstep]
      exact lookup_eq_of_mem_nodup t k v hm hnd.2

/-- Positive half of C6: a sparse sub-structure pattern matches, provided a
truthy `length` property of the candidate is accompanied by a truthy
`length` property of the pattern (otherwise the sequence-length guard fires,
see the counterexample). -/
theorem partialMatch_of_sub (cfs pfs : JSFields)
    (hsub : isSubStructure pfs cfs = true)
    (hlen : truthy ((cfs.lookup "length").getD .undef) = true →
      truthy ((pfs.lookup "length").getD .undef) = true) :
    partialMatch (.obj cfs) (.obj pfs) = .ok true := by
  by_cases hcp : cfs = pfs
  · subst hcp
    exact pde_refl (.arr (.cons (.obj cfs) .nil))
  · have hne : JSVal.obj cfs ≠ .obj pfs := by simp [hcp]
    have hflds := pdeFields_of_sub pfs cfs hsub
    have hlg : lengthGuard (.obj cfs) (.obj pfs) = .ok false := by
      simp only [lengthGuard, lengthProp]
      by_cases ht : truthy ((cfs.lookup "length").getD .undef) = true
      · simp [ht, hlen ht]
      · simp [ht]
    have hinner : partialDeepEqual (.obj cfs) (.obj pfs) = .ok true := by
      rw [pde_unfold]
      simp [hne, hlg, hflds,
        show jsTypeof (JSVal.obj cfs) = "object" from rfl,
        show jsTypeof (JSVal.obj pfs) = "object" from rfl,
        show truthy (JSVal.obj cfs) = true from rfl,
        show truthy (JSVal.obj pfs) = true from rfl]
    have hne2 : JSVal.arr (.cons (.obj cfs) .nil) ≠ .arr (.cons (.obj pfs) .nil) := by
      simp [hcp]
    have hget0 : getField (.arr (.cons (.obj cfs) .nil)) (toString (0 : Nat)) =
      .obj cfs := rfl
    have hlg2 : lengthGuard (.arr (.cons (.obj cfs) .nil))
        (.arr (.cons (.obj pfs) .nil)) = .ok false := rfl
    show partialDeepEqual (.arr (.cons (.obj cfs) .nil))
      (.arr (.cons (.obj pfs) .nil)) = .ok true
    rw [pde_unfold]
    simp [hne2, hlg2, partialDeepEqualElems, hget0, hinner,
      show jsTypeof (JSVal.arr (.cons (.obj cfs) .nil)) = "object" from rfl,
      show jsTypeof (JSVal.arr (.cons (.obj pfs) .nil)) = "object" from rfl,
      show truthy (JSVal.arr (.cons (.obj cfs) .nil)) = true from rfl,
      show truthy (JSVal.arr (.cons (.obj pfs) .nil)) = true from rfl]

/-- Negative half of C6: a pattern field whose value structurally differs
from the candidate's — in type, or as a non-object value — makes the match
`false`, provided both keys are `null`-free (so no comparison throws) and
the pattern's keys are unique. -/
theorem partialMatch_of_mismatch (cfs pfs : JSFields)
    (hnda : (pfs.toList.map Prod.fst).Nodup)
    (hnc : nullFree (.obj cfs) = true) (hnp : nullFreeFields pfs = true)
    (hbad : ∃ k v, (k, v) ∈ pfs.toList ∧ getField (.obj cfs) k ≠ v ∧
      (jsTypeof v ≠ "object" ∨ jsTypeof (getField (.obj cfs) k) ≠ jsTypeof v)) :
    partialMatch (.obj cfs) (.obj pfs) = .ok false := by
  obtain ⟨k, v, hm, hnev, htyv⟩ := hbad
  have hbadf : partialDeepEqual (getField (.obj cfs) k) v = .ok false :=
    pde_ne_false _ _ hnev htyv
  have hcp : cfs ≠ pfs := by
    intro hh
    subst hh
    exact hnev (by simp [getField, lookup_eq_of_mem_nodup cfs k v hm hnda])
  have hok : ∀ k' v', (k', v') ∈ pfs.toList →
      ∃ r, partialDeepEqual (getField (.obj cfs) k') v' = .ok r := fun k' v' hm' =>
    pde_total _ _ (nullFree_getField _ _ hnc) (nullFree_of_mem_fields pfs hnp k' v' hm')
  have hflds := pdeFields_false_of pfs (.obj cfs) hok ⟨k, v, hm, hbadf⟩
  have hne : JSVal.obj cfs ≠ .obj pfs := by simp [hcp]
  have hinner : partialDeepEqual (.obj cfs) (.obj pfs) = .ok false := by
    rcases hlg : lengthGuard (.obj cfs) (.obj pfs) with m | g
    · exfalso
      obtain ⟨g', hg'⟩ := lengthGuard_ok (.obj cfs) (.obj pfs)
        (fun hh => JSVal.noConfusion hh) (fun hh => JSVal.noConfusion hh)
        (fun hh => JSVal.noConfusion hh) (fun hh => JSVal.noConfusion hh)
      rw [hlg] at hg'
      exact Except.noConfusion hg'
    · cases g with
      | true => rw [pde_unfold]; simp [hne, hlg]
      | false =>
        rw [pde_unfold]
        simp [hne, hlg, hflds,
          show jsTypeof (JSVal.obj cfs) = "object" from rfl,
          show jsTypeof (JSVal.obj pfs) = "object" from rfl,
          show truthy (JSVal.obj cfs) = true from rfl,
          show truthy (JSVal.obj pfs) = true from rfl]
  have hne2 : JSVal.arr (.cons (.obj cfs) .nil) ≠ .arr (.cons (.obj pfs) .nil) := by
    simp [hcp]
  have hget0 : getField (.arr (.cons (.obj cfs) .nil)) (toString (0 : Nat)) =
    .obj cfs := rfl
  have hlg2 : lengthGuard (.arr (.cons (.obj cfs) .nil))
      (.arr (.cons (.obj pfs) .nil)) = .ok false := rfl
  show partialDeepEqual (.arr (.cons (.obj cfs) .nil))
    (.arr (.cons (.obj pfs) .nil)) = .ok false
  rw [pde_unfold]
  simp [hne2, hlg2, partialDeepEqualElems, hget0, hinner,
    show jsTypeof (JSVal.arr (.cons (.obj cfs) .nil)) = "object" from rfl,
    show jsTypeof (JSVal.arr (.cons (.obj pfs) .nil)) = "object" from rfl,
    show truthy (JSVal.arr (.cons (.obj cfs) .nil)) = true from rfl,
    show truthy (JSVal.arr (.cons (.obj pfs) .nil)) = true from rfl]

/-- C6 counterexample: the claim's positive direction fails when the
candidate has a truthy `length` property the pattern lacks — `{x: 2}` is a
sparse sub-structure of `{length: 1, x: 2}` (per the spec's own definition,
stated as `isSubStructure`), yet `partialMatch` returns `false`, because the
candidate's truthy `length` and the pattern's absent one trip the
`a.length && !b.length` sequence guard. -/
theorem C6_counterexample :
    isSubStructure (.cons "x" (.num 2) .nil)
      (.cons "length" (.num 1) (.cons "x" (.num 2) .nil)) = true ∧
    partialMatch (.obj (.cons "length" (.num 1) (.cons "x" (.num 2) .nil)))
      (.obj (.cons "x" (.num 2) .nil)) = .ok false := by decide

/-- C6 (amended): for structured keys, a sparse sub-structure pattern
matches the candidate provided a truthy `length` property of the candidate
implies one of the pattern; and the match is `false` whenever some pattern
field differs from the candidate's value in type or as a non-object value
(both keys `null`-free and the pattern's keys unique, so every comparison
settles); keys absent from the pattern are ignored throughout. -/
theorem C6_amended_partial_matching :
    (∀ cfs pfs : JSFields, isSubStructure pfs cfs = true →
      (truthy ((cfs.lookup "length").getD .undef) = true →
        truthy ((pfs.lookup "length").getD .undef) = true) →
      partialMatch (.obj cfs) (.obj pfs) = .ok true) ∧
    (∀ cfs pfs : JSFields, (pfs.toList.map Prod.fst).Nodup →
      nullFree (.obj cfs) = true → nullFreeFields pfs = true →
      (∃ k v, (k, v) ∈ pfs.toList ∧ getField (.obj cfs) k ≠ v ∧
        (jsTypeof v ≠ "object" ∨ jsTypeof (getField (.obj cfs) k) ≠ jsTypeof v)) →
      partialMatch (.obj cfs) (.obj pfs) = .ok false) :=
  ⟨partialMatch_of_sub, partialMatch_of_mismatch⟩

/-- C6 witness: `{id: 1}` matches the candidate `{id: 1, x: 2}` (a sparse
sub-structure), and the mismatching pattern `{id: 2}` does not match the
candidate `{id: 1}`. -/
theorem C6_witness :
    partialMatch (.obj (.cons "id" (.num 1) (.cons "x" (.num 2) .nil)))
      (.obj (.cons "id" (.num 1) .nil)) = .ok true ∧
    partialMatch (.obj (.cons "id" (.num 1) .nil))
      (.obj (.cons "id" (.num 2) .nil)) = .ok false :=
  ⟨C6_amended_partial_matching.1 (.cons "id" (.num 1) (.cons "x" (.num 2) .nil))
      (.cons "id" (.num 1) .nil) (by decide) (by decide),
    C6_amended_partial_matching.2 (.cons "id" (.num 1) .nil)
      (.cons "id" (.num 2) .nil) (by decide) (by decide) (by decide)
      ⟨"id", .num 2, by decide, by decide, Or.inl (by decide)⟩⟩

/-- C8 witness: with handles 1 and 2 registered, tearing down handle 2 and
calling a match-all refetch invokes exactly handle 1 once. -/
theorem C8_witness :
    (resourcesAdd [1, 2] 2).count 2 = 1 ∧
    (2 ∉ ([1, 2] : List Nat) → resourcesDelete (resourcesAdd [1, 2] 2) 2 = [1, 2]) ∧
    (2 ∉ ([1, 2] : List Nat) → resourcesDelete [1, 2] 2 = [1, 2]) ∧
    (∀ key, (refetchRouteData (resourcesDelete (resourcesAdd [1, 2] 2) 2) key).map
      Prod.fst = ([1, 2] : List Nat).filter (fun g => g != 2)) ∧
    (∀ g, g ∈ ([1, 2] : List Nat) → g ≠ 2 →
      ((refetchRouteData (resourcesDelete (resourcesAdd [1, 2] 2) 2) none).map
        Prod.fst).count g = 1) ∧
    2 ∉ (refetchRouteData (resourcesDelete (resourcesAdd [1, 2] 2) 2) none).map Prod.fst :=
  C8_registry_lifecycle [1, 2] 2 (by decide)

end CreateRouteData
